import Mathlib

/-!
A verification development for the Thermite destructible-polygon engine.

The geometric core of the repository lives in `Thermite/b2Separator.cpp`
(polygon validation and convex decomposition), `Thermite/core/Prototype.cpp`
and the evolving prototype `Prototype.cpp` (blast application: the crossover
walk, the blast-shape retry loop), and `Thermite/Bomb.cpp` /
`Thermite/core/Bomb.cpp` (blast-shape generation, radius clamping).

Coordinates are modelled as exact rationals (the source uses `float`);
the absolute tolerances `0.1` appearing in `isOnSegment`, `isOnLine` and
`pointsMatch` are kept verbatim as the rational `1/10`.  Division is the
rational field division; the source divides IEEE floats, where a zero
denominator yields a non-finite value that fails every subsequent segment
test, while here `x / 0 = 0` yields the ray origin, which likewise fails
the segment tests on the polygons considered.

`b2Separator.h` is not in the repository; the C++ `Validate` declares
`int ... d` and assigns it the determinant, so the determinant value is
truncated toward zero before the sign test.  We model that truncation
explicitly (`ratTrunc`); on the integer-coordinate inputs used in the
concrete theorems below it is the identity.
-/

namespace Thermite

/-- A 2D point, the shallow embedding of `b2Vec2`. -/
abbrev Q2 := ℚ × ℚ

/-- Truncation toward zero of a rational, the C `int` conversion applied by
`int d = det(...)` in `b2Separator::Validate`. -/
def ratTrunc (q : ℚ) : ℤ :=
  if 0 ≤ q then ⌊q⌋ else -⌊-q⌋

/-- The 3x3 determinant of `b2Separator` (`det` in b2Separator.cpp):
positive when the three points make a clockwise turn in the source's
convention, negative for a counter-clockwise turn. -/
def det (x1 y1 x2 y2 x3 y3 : ℚ) : ℚ :=
  x1 * y2 + x2 * y3 + x3 * y1 - y1 * x2 - y2 * x3 - y3 * x1

/-- The absolute tolerance `0.1` used throughout b2Separator.cpp. -/
def tol : ℚ := 1 / 10

/-- `isOnLine` from b2Separator.cpp. -/
def isOnLine (px py x1 y1 x2 y2 : ℚ) : Bool :=
  if (x2 - x1 > tol) || (x1 - x2 > tol) then
    let a := (y2 - y1) / (x2 - x1)
    let possibleY := a * (px - x1) + y1
    let diff := if possibleY > py then possibleY - py else py - possibleY
    diff < tol
  else
    (px - x1 < tol) || (x1 - px < tol)

/-- `isOnSegment` from b2Separator.cpp: the point `(px, py)` lies within the
tolerated bounding box of the segment and on its carrier line. -/
def isOnSegment (px py x1 y1 x2 y2 : ℚ) : Bool :=
  let b1 := ((x1 + tol ≥ px) && px ≥ x2 - tol) || ((x1 - tol ≤ px) && px ≤ x2 + tol)
  let b2 := ((y1 + tol ≥ py) && py ≥ y2 - tol) || ((y1 - tol ≤ py) && py ≤ y2 + tol)
  b1 && b2 && isOnLine px py x1 y1 x2 y2

/-- `pointsMatch` from b2Separator.cpp. -/
def pointsMatch (x1 y1 x2 y2 : ℚ) : Bool :=
  let dx := if x2 ≥ x1 then x2 - x1 else x1 - x2
  let dy := if y2 ≥ y1 then y2 - y1 else y1 - y2
  (dx < tol) && dy < tol

/-- `hitRay` from b2Separator.cpp: intersection of the ray from `(x1,y1)`
through `(x2,y2)` (the hit must lie beyond `(x2,y2)`) with the segment
`(x3,y3)-(x4,y4)`. -/
def hitRay (x1 y1 x2 y2 x3 y3 x4 y4 : ℚ) : Option Q2 :=
  let t1 := x3 - x1
  let t2 := y3 - y1
  let t3 := x2 - x1
  let t4 := y2 - y1
  let t5 := x4 - x3
  let t6 := y4 - y3
  let t7 := t4 * t5 - t3 * t6
  let a := (t5 * t2 - t6 * t1) / t7
  let px := x1 + a * t3
  let py := y1 + a * t4
  let b1 := isOnSegment x2 y2 x1 y1 px py
  let b2 := isOnSegment px py x3 y3 x4 y4
  if b1 && b2 then some (px, py) else none

/-- `hitSegment` from b2Separator.cpp: intersection point of the two
segments `(x1,y1)-(x2,y2)` and `(x3,y3)-(x4,y4)`, if any. -/
def hitSegment (x1 y1 x2 y2 x3 y3 x4 y4 : ℚ) : Option Q2 :=
  let t1 := x3 - x1
  let t2 := y3 - y1
  let t3 := x2 - x1
  let t4 := y2 - y1
  let t5 := x4 - x3
  let t6 := y4 - y3
  let t7 := t4 * t5 - t3 * t6
  let a := (t5 * t2 - t6 * t1) / t7
  let px := x1 + a * t3
  let py := y1 + a * t4
  let b1 := isOnSegment px py x1 y1 x2 y2
  let b2 := isOnSegment px py x3 y3 x4 y4
  if b1 && b2 then some (px, py) else none

/-- Vertex access `pVerticesVec->at(i)`, with an out-of-range default
(never reached on the index ranges the loops use). -/
def vAt (vec : List Q2) (i : ℕ) : Q2 :=
  vec.getD i (0, 0)

/-- One step of the inner `j` loop of `b2Separator::Validate`, acting on the
state `(fl, ret)`.  `fl` records whether some eligible vertex `j` lies
clockwise of edge `(i, i2)`; `ret` is set to `1` when edge `(i, i2)` hits
edge `(j, j2)` for an eligible `j`. -/
def validateJ (vec : List Q2) (n i i2 i3 j : ℕ) (st : Bool × ℕ) : Bool × ℕ :=
  if j ≠ i && j ≠ i2 then
    let p := vAt vec i
    let q := vAt vec i2
    let w := vAt vec j
    let fl := if !st.1 then
        (if ratTrunc (det p.1 p.2 q.1 q.2 w.1 w.2) > 0 then true else st.1)
      else st.1
    let ret := if j ≠ i3 then
        let j2 := if j < n - 1 then j + 1 else 0
        let w2 := vAt vec j2
        if (hitSegment p.1 p.2 q.1 q.2 w.1 w.2 w2.1 w2.2).isSome then 1 else st.2
      else st.2
    (fl, ret)
  else st

/-- One step of the outer `i` loop of `b2Separator::Validate`, acting on the
state `(fl2, ret)`. -/
def validateI (vec : List Q2) (n : ℕ) (st : Bool × ℕ) (i : ℕ) : Bool × ℕ :=
  let i2 := if i < n - 1 then i + 1 else 0
  let i3 := if i > 0 then i - 1 else n - 1
  let inner := (List.range n).foldl (fun s j => validateJ vec n i i2 i3 j s) (false, st.2)
  (if !inner.1 then true else st.1, inner.2)

/-- `b2Separator::Validate` (b2Separator.cpp, lines 38-80): `0` = Ok,
`1` = SelfIntersecting, `2` = WrongWinding, `3` = Both. -/
def Validate (vec : List Q2) : ℕ :=
  let n := vec.length
  let r := (List.range n).foldl (validateI vec n) (false, 0)
  if r.1 then (if r.2 == 1 then 3 else 2) else r.2

/-- Declarative reading of the per-edge winding flag `fl`: some eligible
vertex `j` lies strictly clockwise of edge `(i, i2)`. -/
def windingFlAt (vec : List Q2) (n i i2 : ℕ) : Bool :=
  (List.range n).any fun j =>
    j ≠ i && j ≠ i2 &&
      (let p := vAt vec i
       let q := vAt vec i2
       let w := vAt vec j
       decide (ratTrunc (det p.1 p.2 q.1 q.2 w.1 w.2) > 0))

/-- Declarative reading of `fl2`: some edge has no eligible vertex strictly
clockwise of it, so the winding check fails. -/
def wrongWindingB (vec : List Q2) : Bool :=
  let n := vec.length
  (List.range n).any fun i =>
    !(windingFlAt vec n i (if i < n - 1 then i + 1 else 0))

/-- Declarative reading of the sticky `ret = 1` assignment: some pair of
eligible edges intersects. -/
def selfIntersectB (vec : List Q2) : Bool :=
  let n := vec.length
  (List.range n).any fun i =>
    let i2 := if i < n - 1 then i + 1 else 0
    let i3 := if i > 0 then i - 1 else n - 1
    (List.range n).any fun j =>
      j ≠ i && j ≠ i2 && j ≠ i3 &&
        (let p := vAt vec i
         let q := vAt vec i2
         let w := vAt vec j
         let j2 := if j < n - 1 then j + 1 else 0
         let w2 := vAt vec j2
         (hitSegment p.1 p.2 q.1 q.2 w.1 w.2 w2.1 w2.2).isSome)

/-- The signed-turn determinant of the vertex triple `(i, i+1, i+2)` of a
polygon, as computed at the top of each `calcShapes` scan (`d` in
b2Separator.cpp, line 109); indices wrap cyclically. -/
def detTriple (vec : List Q2) (i : ℕ) : ℚ :=
  let n := vec.length
  let i2 := if i < n - 1 then i + 1 else i + 1 - n
  let i3 := if i < n - 2 then i + 2 else i + 2 - n
  let p1 := vAt vec i
  let p2 := vAt vec i2
  let p3 := vAt vec i3
  det p1.1 p1.2 p2.1 p2.2 p3.1 p3.2

/-- A polygon is convex for `calcShapes` when no cyclic vertex triple has a
negative signed-turn determinant. -/
def isConvexVec (vec : List Q2) : Bool :=
  (List.range vec.length).all fun i => !(decide (detTriple vec i < 0))

/-- The index of the first vertex triple with negative determinant found by
the `calcShapes` scan loop, if any. -/
def findReflexIdx (vec : List Q2) : Option ℕ :=
  (List.range vec.length).find? fun i => decide (detTriple vec i < 0)

/-- Squared distance between two points (`dx*dx + dy*dy` in the `calcShapes`
split-selection loop). -/
def distSq (p v : Q2) : ℚ :=
  (p.1 - v.1) * (p.1 - v.1) + (p.2 - v.2) * (p.2 - v.2)

/-- One step of the split-selection loop of `calcShapes` (lines 114-137):
for an eligible edge `(j, j2)`, keep the ray hit whose squared distance
from `p2` is strictly below the best so far. -/
def chooseSplitStep (vec : List Q2) (n i1 i2 : ℕ) (p1 p2 : Q2)
    (acc : Option (ℕ × ℕ × Q2 × ℚ)) (j : ℕ) : Option (ℕ × ℕ × Q2 × ℚ) :=
  if j ≠ i1 && j ≠ i2 then
    match hitRay p1.1 p1.2 p2.1 p2.2 (vAt vec j).1 (vAt vec j).2
        (vAt vec (if j < n - 1 then j + 1 else 0)).1
        (vAt vec (if j < n - 1 then j + 1 else 0)).2 with
    | some v =>
      match acc with
      | none => some (j, if j < n - 1 then j + 1 else 0, v, distSq p2 v)
      | some (h, k, hv, minLen) =>
        if distSq p2 v < minLen then some (j, if j < n - 1 then j + 1 else 0, v, distSq p2 v)
        else some (h, k, hv, minLen)
    | none => acc
  else acc

/-- The split-selection loop of `calcShapes` for the reflex triple starting
at scan index `i1`: the chosen edge indices `(h, k)`, hit point `hitV`, and
its squared distance from `p2`.  `none` models `minLen == Number.MAX_VALUE`,
on which the source raises `err()`. -/
def chooseSplit (vec : List Q2) (i1 : ℕ) : Option (ℕ × ℕ × Q2 × ℚ) :=
  let n := vec.length
  let i2 := if i1 < n - 1 then i1 + 1 else i1 + 1 - n
  let p1 := vAt vec i1
  let p2 := vAt vec i2
  (List.range n).foldl (chooseSplitStep vec n i1 i2 p1 p2) none

/-- The cyclic successor index `i2` computed by the `calcShapes` scan. -/
def splitI2 (vec : List Q2) (i1 : ℕ) : ℕ :=
  if i1 < vec.length - 1 then i1 + 1 else i1 + 1 - vec.length

/-- The ray hit the split-selection loop computes for candidate edge `j`:
the ray from `p1 = vec[i1]` through `p2 = vec[i2]` (the reflex vertex) cast
against edge `(j, j+1)`. -/
def splitEdgeCandidate (vec : List Q2) (i1 j : ℕ) : Option Q2 :=
  let n := vec.length
  let i2 := splitI2 vec i1
  let p1 := vAt vec i1
  let p2 := vAt vec i2
  hitRay p1.1 p1.2 p2.1 p2.2 (vAt vec j).1 (vAt vec j).2
    (vAt vec (if j < n - 1 then j + 1 else 0)).1
    (vAt vec (if j < n - 1 then j + 1 else 0)).2

/-- The first chain-building loop of `calcShapes` (lines 158-183): walk `k`
downward (cyclically) from `i1` until `j2`, collecting vertices; `none`
models the `err()` raised when `h` is still unset at the stop test.  The
collected list is reversed afterwards, as in the source. -/
def buildChain1 (vec : List Q2) (n j2 : ℕ) (v2 p1 : Q2) :
    ℕ → Option ℕ → ℕ → List Q2 → Option (List Q2)
  | 0, _, _, _ => none
  | fuel + 1, h, k, acc =>
    if k ≠ j2 then
      buildChain1 vec n j2 v2 p1 fuel (some k)
        (if k = 0 then n - 1 else k - 1) (acc ++ [vAt vec k])
    else
      match h with
      | none => none
      | some h =>
        if h ≥ n then none
        else if !(isOnSegment v2.1 v2.2 (vAt vec h).1 (vAt vec h).2 p1.1 p1.2) then
          some (acc ++ [vAt vec k])
        else some acc

/-- The second chain-building loop of `calcShapes` (lines 185-208): walk `k`
upward (cyclically) from `i2` until `j1`. -/
def buildChain2 (vec : List Q2) (n j1 : ℕ) (v1 p2 : Q2) :
    ℕ → Option ℕ → ℕ → List Q2 → Option (List Q2)
  | 0, _, _, _ => none
  | fuel + 1, h, k, acc =>
    if k ≠ j1 then
      buildChain2 vec n j1 v1 p2 fuel (some k)
        (if k + 1 > n - 1 then 0 else k + 1) (acc ++ [vAt vec k])
    else
      match h with
      | none => none
      | some h =>
        if h ≥ n then none
        else if k = j1 && !(isOnSegment v1.1 v1.2 (vAt vec h).1 (vAt vec h).2 p2.1 p2.2) then
          some (acc ++ [vAt vec k])
        else some acc

/-- The split step of `calcShapes` for a reflex triple at scan index `i1`:
select the split edge, then build the two daughter chains `vec1` (reversed,
as in the source) and `vec2`.  `none` models a raised `err()`. -/
def splitPolygon (vec : List Q2) (i1 : ℕ) : Option (List Q2 × List Q2) :=
  let n := vec.length
  let i2 := if i1 < n - 1 then i1 + 1 else i1 + 1 - n
  let p1 := vAt vec i1
  let p2 := vAt vec i2
  match chooseSplit vec i1 with
  | none => none
  | some (h, k, hitV, _) =>
    let j1 := h
    let j2 := k
    let v1 := vAt vec j1
    let v2 := vAt vec j2
    let vec1Init := if !(pointsMatch hitV.1 hitV.2 v2.1 v2.2) then [hitV] else []
    let vec2Init := if !(pointsMatch hitV.1 hitV.2 v1.1 v1.2) then [hitV] else []
    match buildChain1 vec n j2 v2 p1 (n + 1) none i1 vec1Init,
          buildChain2 vec n j1 v1 p2 (n + 1) none i2 vec2Init with
    | some c1, some c2 => some (c1.reverse, c2)
    | _, _ => none

/-- The `calcShapes` work-queue loop, with fuel: `queue` is the pending
polygon queue, `figs` the output accumulator.  `none` models either a raised
`err()` or fuel exhaustion (a run of the source that never returns). -/
def calcShapesAux : ℕ → List (List Q2) → List (List Q2) → Option (List (List Q2))
  | 0, _, _ => none
  | _ + 1, [], figs => some figs
  | fuel + 1, vec :: rest, figs =>
    match findReflexIdx vec with
    | none => calcShapesAux fuel rest (figs ++ [vec])
    | some i =>
      match splitPolygon vec i with
      | none => none
      | some (vec1, vec2) => calcShapesAux fuel (rest ++ [vec1, vec2]) figs

/-- `calcShapes` from b2Separator.cpp (lines 82-223), seeded with the input
polygon. -/
def calcShapes (fuel : ℕ) (input : List Q2) : Option (List (List Q2)) :=
  calcShapesAux fuel [input] []

/-!
The crossover walk of `Prototype::testPlaceBomb` (the evolving prototype
`Prototype.cpp`, the file with the `specialWindingStack`).  The body is
assumed to carry exactly one non-sensor polygon fixture (the breakable
structure; the bomb fixtures added just before the walk are sensors and the
loop skips them), so per blast vertex the fixture loop runs once and
`lastState` compares consecutive blast vertices.  The point-in-fixture test
and the ray-cast crossover lookup act through the physics engine, so they
are parameters of the model: `classify v` is `shape->TestPoint(transform, v)`
and `cross p1 p2` is `getCrossoverVertex(fix, p1, p2)` with `none` modelling
the `throw exception()` on a failed ray cast, which the walk catches and
swallows (the `catch ... // wtf?` block), skipping that crossover's pushes.
-/

/-- The mutable state of the crossover walk in `Prototype::testPlaceBomb`. -/
structure WalkSt where
  lastState : Bool
  needed : Bool
  started : Bool
  count : ℕ
  stack : List Q2
  newS : List Q2
  brokenS : List Q2
deriving Repr, DecidableEq

/-- The initial walk state. -/
def WalkSt.init : WalkSt :=
  ⟨false, false, false, 0, [], [], []⟩

/-- Processing of one blast vertex `v` in the crossover walk; `lastV` is
`none` exactly on the first vertex (the `it == bombShape->begin()` branch). -/
def stepVertex (classify : Q2 → Bool) (cross : Q2 → Q2 → Option Q2)
    (s : WalkSt) (lastV : Option Q2) (v : Q2) : WalkSt :=
  match lastV with
  | none =>
    if classify v then
      { s with needed := true, newS := s.newS ++ [v], brokenS := s.brokenS ++ [v],
               lastState := true }
    else { s with lastState := false }
  | some lv =>
    let pin := classify v
    let s :=
      if s.lastState ≠ pin then
        let s := { s with count := s.count + 1 }
        if pin then
          match cross lv v with
          | some cv =>
            if s.needed then
              { s with started := true, stack := v :: cv :: s.stack }
            else
              { s with newS := s.newS ++ [cv, v] }
          | none => s
        else
          match cross v lv with
          | some cv =>
            { s with newS := s.newS ++ [cv], brokenS := s.brokenS ++ [cv] }
          | none => s
      else
        if pin then
          if s.started then { s with stack := v :: s.stack }
          else { s with newS := s.newS ++ [v], brokenS := s.brokenS ++ [v] }
        else s
    { s with lastState := pin }

/-- The walk over the remaining blast vertices, threading the previous
vertex (`lastVertex` in the source). -/
def walkAux (classify : Q2 → Bool) (cross : Q2 → Q2 → Option Q2) :
    WalkSt → Option Q2 → List Q2 → WalkSt
  | s, _, [] => s
  | s, lastV, v :: vs =>
    walkAux classify cross (stepVertex classify cross s lastV v) (some v) vs

/-- The hard-coded `breakableShape` square of `Prototype::testPlaceBomb`. -/
def breakableShape : List Q2 :=
  [(-4, 4), (-4, -4), (4, -4), (4, 4)]

/-- The observable outcome of one `testPlaceBomb` blast application: the two
vertex chains it assembles, the number of detected crossovers, and whether
the structure body was destroyed and replaced (in the source this happens
unconditionally: `m_pWorld->DestroyBody(body); ... CreateBody ...
Separate(newBreakable, ..., newStructure ...)`). -/
structure PlaceResult where
  newStructure : List Q2
  brokenStructure : List Q2
  crossoverCount : ℕ
  bodyDestroyed : Bool
deriving Repr, DecidableEq

/-- The crossover phase of `Prototype::testPlaceBomb` (lines 104-223 of the
prototype): run the walk over the blast vertices, drain the
`specialWindingStack` front-first into both chains, append the hard-coded
`breakableShape` vertices, then destroy the body and build the replacement
from `newStructure`. -/
def testPlaceBombModel (classify : Q2 → Bool) (cross : Q2 → Q2 → Option Q2)
    (blast : List Q2) : PlaceResult :=
  let s := walkAux classify cross WalkSt.init none blast
  { newStructure := s.newS ++ s.stack ++
      [vAt breakableShape 0, vAt breakableShape 1, vAt breakableShape 2],
    brokenStructure := s.brokenS ++ s.stack ++ [vAt breakableShape 3],
    crossoverCount := s.count,
    bodyDestroyed := true }

/-- The blast-shape retry loop of `Prototype::testPlaceBomb`
(`do { bombShape = generateBlastShape(...); } while (Validate(...) != 0)`),
with the successive generator outputs abstracted as the stream `shapes`
(the generator draws fresh `rand()` noise on each call).  The loop keeps no
attempt counter; the fuel argument is the observation bound of the model,
`none` meaning the loop is still running after that many attempts. -/
def blastRetry (shapes : ℕ → List Q2) : ℕ → ℕ → Option (List Q2)
  | 0, _ => none
  | fuel + 1, k =>
    if Validate (shapes k) = 0 then some (shapes k) else blastRetry shapes fuel (k + 1)

/-- `Bomb` state: the stored blast radius (`m_radius`). -/
structure BombSt where
  m_radius : ℤ
deriving Repr, DecidableEq

/-- `m_maxRadius = 50` (Bomb.h, both versions). -/
def m_maxRadius : ℤ := 50

/-- `Bomb::setRadius` (Bomb.cpp, lines 23-33): clamp and store the radius,
returning the stored value. -/
def setRadius (s : BombSt) (radius : ℤ) : BombSt × ℤ :=
  let r := if radius > m_maxRadius then m_maxRadius
           else if radius < 1 then 0
           else radius
  ({ s with m_radius := r }, r)

/-- `Bomb::getRadius`. -/
def getRadius (s : BombSt) : ℤ :=
  s.m_radius

/-- `Prototype::generateBlastShape(radius, segments, roughness)`
(core/Prototype.cpp lines 139-152): `segments` points at angles
`k * (2*pi/segments)`, each at radius `radius + noise k * (radius*roughness)`
where `noise k` abstracts the `CCRANDOM_MINUS1_1()` draw of iteration `k`,
a pseudo-random value in `[-1, 1]`. -/
noncomputable def generateBlastShape (radius : ℝ) (segments : ℕ) (roughness : ℝ)
    (noise : ℕ → ℝ) : List (ℝ × ℝ) :=
  let delta := 2 * Real.pi / segments
  let radiusThreshold := radius * roughness
  (List.range segments).map fun k =>
    let r := radius + noise k * radiusThreshold
    (r * Real.cos (k * delta), r * Real.sin (k * delta))

/-- Distance of a planar point from the origin. -/
noncomputable def distOrigin (p : ℝ × ℝ) : ℝ :=
  Real.sqrt (p.1 ^ 2 + p.2 ^ 2)

/-!  Concrete inputs used by the witness and counterexample theorems. -/

/-- The canonical square in the winding order the source treats as correct
(the order of `breakableShape` in `Prototype::testPlaceBomb`): every vertex
triple has positive determinant. -/
def squareCW : List Q2 := [(-4, 4), (-4, -4), (4, -4), (4, 4)]

/-- The same square with the vertex order reversed. -/
def squareRev : List Q2 := [(4, 4), (4, -4), (-4, -4), (-4, 4)]

/-- A bowtie (self-crossing) quadrilateral: edges 0 and 2 cross at (2,2). -/
def bowtie : List Q2 := [(0, 0), (4, 4), (4, 0), (0, 4)]

/-- A degenerate three-vertex list whose first two points coincide. -/
def dupTriangle : List Q2 := [(0, 0), (0, 0), (1, 0)]

/-- The canonical square with its first vertex duplicated. -/
def dupSquare : List Q2 := [(-4, 4), (-4, 4), (-4, -4), (4, -4), (4, 4)]

/-- The L-shaped hexagon of `Prototype::testSeparator`. -/
def Lshape : List Q2 := [(-4, -4), (4, -4), (4, 0), (0, 0), (0, 4), (-4, 4)]

/-- First output piece of `calcShapes` on `Lshape`. -/
def LshapeOut1 : List Q2 := [(-4, -4), (4, -4), (4, 0), (-4, 0)]

/-- Second output piece of `calcShapes` on `Lshape`. -/
def LshapeOut2 : List Q2 := [(-4, 0), (0, 0), (0, 4), (-4, 4)]

/-- A simple polygon (validated `Ok` by `Validate`) whose first scanned
vertex triple `(0, 1, 2)` is reflex: the ray from vertex 0 through vertex 1
(the reflex vertex) hits the far wall edge `(3,4)` at `(120, 0)`, and the
two notch wall edges at `(30, 0)` and `(28, 0)`. -/
def raggedDecagon : List Q2 :=
  [(0, 0), (10, 0), (80, -10), (120, -10), (120, 20),
   (30, 20), (30, -2), (28, -2), (28, 20), (0, 20)]

/-- A concrete vertex classification (upper half plane), standing in for
`shape->TestPoint` in the walk witnesses. -/
def clsAbove : Q2 → Bool := fun p => decide (p.2 > 0)

/-- A concrete always-succeeding crossover lookup (segment midpoint),
standing in for `getCrossoverVertex` in the walk witnesses. -/
def crsMid : Q2 → Q2 → Option Q2 :=
  fun p q => some ((p.1 + q.1) / 2, (p.2 + q.2) / 2)

/-!  Theorems.  First: the loop of `b2Separator::Validate` computes the two
declarative flags and combines them without short-circuiting. -/

/-- Merging of a sticky assignment with an accumulated disjunction. -/
theorem if_or_one (a b : Bool) (r : ℕ) :
    (if b = true then 1 else if a = true then 1 else r) =
      (if (a || b) = true then 1 else r) := by
  cases a <;> cases b <;> simp

/-- Pointwise reading of the inner-loop step: the winding flag is sticky and
becomes true exactly when an eligible vertex with positive truncated
determinant is seen. -/
theorem validateJ_fst (vec : List Q2) (n i i2 i3 j : ℕ) (st : Bool × ℕ) :
    (validateJ vec n i i2 i3 j st).1 =
      (st.1 || (j ≠ i && j ≠ i2 &&
        decide (ratTrunc (det (vAt vec i).1 (vAt vec i).2 (vAt vec i2).1 (vAt vec i2).2
          (vAt vec j).1 (vAt vec j).2) > 0))) := by
  rcases st with ⟨fl, ret⟩
  by_cases h1 : j = i
  · simp [validateJ, h1]
  · by_cases h2 : j = i2
    · simp [validateJ, h1, h2]
    · cases fl
      · simp [validateJ, h1, h2]
      · simp [validateJ, h1, h2]

/-- Pointwise reading of the inner-loop step: the self-intersection result
is sticky and becomes `1` exactly when an eligible pair of edges hits. -/
theorem validateJ_snd (vec : List Q2) (n i i2 i3 j : ℕ) (st : Bool × ℕ) :
    (validateJ vec n i i2 i3 j st).2 =
      (if (j ≠ i && j ≠ i2 && j ≠ i3 &&
          (hitSegment (vAt vec i).1 (vAt vec i).2 (vAt vec i2).1 (vAt vec i2).2
            (vAt vec j).1 (vAt vec j).2
            (vAt vec (if j < n - 1 then j + 1 else 0)).1
            (vAt vec (if j < n - 1 then j + 1 else 0)).2).isSome) = true
        then 1 else st.2) := by
  rcases st with ⟨fl, ret⟩
  by_cases h1 : j = i
  · simp [validateJ, h1]
  · by_cases h2 : j = i2
    · simp [validateJ, h1, h2]
    · by_cases h3 : j = i3
      · subst h3
        simp [validateJ, h1, h2]
      · cases h4 : (hitSegment (vAt vec i).1 (vAt vec i).2 (vAt vec i2).1 (vAt vec i2).2
            (vAt vec j).1 (vAt vec j).2
            (vAt vec (if j < n - 1 then j + 1 else 0)).1
            (vAt vec (if j < n - 1 then j + 1 else 0)).2).isSome
        · simp [validateJ, h1, h2, h3, h4]
        · simp [validateJ, h1, h2, h3, h4]

/-- The inner fold accumulates the winding flag as a disjunction over the
scanned vertices. -/
theorem foldJ_fst (vec : List Q2) (n i i2 i3 : ℕ) :
    ∀ (l : List ℕ) (st : Bool × ℕ),
      (l.foldl (fun s j => validateJ vec n i i2 i3 j s) st).1 =
        (st.1 || l.any fun j => j ≠ i && j ≠ i2 &&
          decide (ratTrunc (det (vAt vec i).1 (vAt vec i).2 (vAt vec i2).1 (vAt vec i2).2
            (vAt vec j).1 (vAt vec j).2) > 0)) := by
  intro l
  induction l with
  | nil => intro st; simp
  | cons j l ih =>
    intro st
    rw [List.foldl_cons, ih, List.any_cons, validateJ_fst, Bool.or_assoc]

/-- The inner fold sets the self-intersection result to `1` exactly when
some scanned pair of eligible edges hits. -/
theorem foldJ_snd (vec : List Q2) (n i i2 i3 : ℕ) :
    ∀ (l : List ℕ) (st : Bool × ℕ),
      (l.foldl (fun s j => validateJ vec n i i2 i3 j s) st).2 =
        (if (l.any fun j => j ≠ i && j ≠ i2 && j ≠ i3 &&
            (hitSegment (vAt vec i).1 (vAt vec i).2 (vAt vec i2).1 (vAt vec i2).2
              (vAt vec j).1 (vAt vec j).2
              (vAt vec (if j < n - 1 then j + 1 else 0)).1
              (vAt vec (if j < n - 1 then j + 1 else 0)).2).isSome) = true
          then 1 else st.2) := by
  intro l
  induction l with
  | nil => intro st; simp
  | cons j l ih =>
    intro st
    rw [List.foldl_cons, ih, List.any_cons, validateJ_snd, if_or_one]

/-- The outer fold accumulates `fl2` as the disjunction of failed
per-edge winding flags. -/
theorem foldI_fst (vec : List Q2) (n : ℕ) :
    ∀ (l : List ℕ) (st : Bool × ℕ),
      (l.foldl (validateI vec n) st).1 =
        (st.1 || l.any fun i => !(windingFlAt vec n i (if i < n - 1 then i + 1 else 0))) := by
  intro l
  induction l with
  | nil => intro st; simp
  | cons i l ih =>
    intro st
    rw [List.foldl_cons, ih, List.any_cons, ← Bool.or_assoc]
    have hstep : (validateI vec n st i).1 =
        (st.1 || !(windingFlAt vec n i (if i < n - 1 then i + 1 else 0))) := by
      simp only [validateI, foldJ_fst, Bool.false_or, windingFlAt]
      cases hw : (List.range n).any fun j => j ≠ i && j ≠ (if i < n - 1 then i + 1 else 0) &&
        decide (ratTrunc (det (vAt vec i).1 (vAt vec i).2
          (vAt vec (if i < n - 1 then i + 1 else 0)).1
          (vAt vec (if i < n - 1 then i + 1 else 0)).2
          (vAt vec j).1 (vAt vec j).2) > 0)
      · simp
      · simp
    rw [hstep]

/-- The outer fold computes the self-intersection result `ret` as `1`
exactly when some row detects an eligible edge pair hit. -/
theorem foldI_snd (vec : List Q2) (n : ℕ) :
    ∀ (l : List ℕ) (st : Bool × ℕ),
      (l.foldl (validateI vec n) st).2 =
        (if (l.any fun i =>
            (List.range n).any fun j =>
              j ≠ i && j ≠ (if i < n - 1 then i + 1 else 0) &&
                j ≠ (if i > 0 then i - 1 else n - 1) &&
                (hitSegment (vAt vec i).1 (vAt vec i).2
                  (vAt vec (if i < n - 1 then i + 1 else 0)).1
                  (vAt vec (if i < n - 1 then i + 1 else 0)).2
                  (vAt vec j).1 (vAt vec j).2
                  (vAt vec (if j < n - 1 then j + 1 else 0)).1
                  (vAt vec (if j < n - 1 then j + 1 else 0)).2).isSome) = true
          then 1 else st.2) := by
  intro l
  induction l with
  | nil => intro st; simp
  | cons i l ih =>
    intro st
    rw [List.foldl_cons, ih, List.any_cons]
    have hstep : (validateI vec n st i).2 =
        (if ((List.range n).any fun j =>
            j ≠ i && j ≠ (if i < n - 1 then i + 1 else 0) &&
              j ≠ (if i > 0 then i - 1 else n - 1) &&
              (hitSegment (vAt vec i).1 (vAt vec i).2
                (vAt vec (if i < n - 1 then i + 1 else 0)).1
                (vAt vec (if i < n - 1 then i + 1 else 0)).2
                (vAt vec j).1 (vAt vec j).2
                (vAt vec (if j < n - 1 then j + 1 else 0)).1
                (vAt vec (if j < n - 1 then j + 1 else 0)).2).isSome) = true
          then 1 else st.2) := by
      simp only [validateI, foldJ_snd]
    rw [hstep, if_or_one]

/-- The imperative `Validate` loop equals the declarative combination of
the winding flag and the self-intersection flag. -/
theorem validate_eq_flags (vec : List Q2) :
    Validate vec =
      (if wrongWindingB vec then (if selfIntersectB vec then 3 else 2)
       else (if selfIntersectB vec then 1 else 0)) := by
  have h1 : ((List.range vec.length).foldl (validateI vec vec.length) (false, 0)).1 =
      wrongWindingB vec := by
    rw [foldI_fst]
    exact (Bool.false_or _).trans rfl
  have h2 : ((List.range vec.length).foldl (validateI vec vec.length) (false, 0)).2 =
      (if selfIntersectB vec then 1 else 0) := by
    rw [foldI_snd]
    rfl
  have base : Validate vec =
      (if ((List.range vec.length).foldl (validateI vec vec.length) (false, 0)).1 = true then
        (if (((List.range vec.length).foldl (validateI vec vec.length) (false, 0)).2 == 1) = true
          then 3 else 2)
       else ((List.range vec.length).foldl (validateI vec vec.length) (false, 0)).2) := rfl
  rw [base, h1, h2]
  cases hw : wrongWindingB vec <;> cases hs : selfIntersectB vec <;> simp

/-- C5: `Validate` runs the winding check and the self-intersection check
independently, without short-circuiting: whenever both flags fire it returns
the combined code `Both` (3), and in every case the result is exactly one of
`Ok` (0), `SelfIntersecting` (1), `WrongWinding` (2), `Both` (3). -/
theorem C5_validate_combines_flags (vec : List Q2) :
    (selfIntersectB vec = true → wrongWindingB vec = true → Validate vec = 3) ∧
      (Validate vec = 0 ∨ Validate vec = 1 ∨ Validate vec = 2 ∨ Validate vec = 3) := by
  rw [validate_eq_flags]
  cases hw : wrongWindingB vec <;> cases hs : selfIntersectB vec <;> simp

unseal Rat.mul Rat.add Rat.sub Rat.inv in
/-- Witness for C5: the bowtie quadrilateral both self-intersects and fails
the winding check, and `Validate` indeed returns `Both` (3) on it. -/
theorem C5_validate_combines_flags_witness :
    selfIntersectB bowtie = true ∧ wrongWindingB bowtie = true ∧ Validate bowtie = 3 :=
  ⟨by decide, by decide,
    (C5_validate_combines_flags bowtie).1 (by decide) (by decide)⟩

unseal Rat.mul Rat.add Rat.sub Rat.inv in
/-- C6: `Validate` returns `Ok` (0) on the canonical clockwise square,
`WrongWinding` (2) on the reversed square, and `SelfIntersecting` or `Both`
(here: `Both`, 3) on the bowtie quadrilateral. -/
theorem C6_validator_soundness :
    Validate squareCW = 0 ∧ Validate squareRev = 2 ∧
      (Validate bowtie = 1 ∨ Validate bowtie = 3) := by
  refine ⟨by decide, by decide, Or.inr (by decide)⟩

unseal Rat.mul Rat.add Rat.sub Rat.inv in
/-- Counterexample for C9: a vertex list with duplicate consecutive points
on which `Validate` returns `WrongWinding` (2) — the `SelfIntersecting`
flag (result 1 or 3) claimed by the spec is not set. -/
theorem C9_counterexample :
    vAt dupTriangle 0 = vAt dupTriangle 1 ∧
      Validate dupTriangle = 2 ∧ Validate dupTriangle ≠ 1 ∧ Validate dupTriangle ≠ 3 := by
  refine ⟨by decide, by decide, by decide, by decide⟩

/-- The determinant of a triple whose first two points coincide is zero. -/
theorem det_pair_eq_zero (x y a b : ℚ) : det x y x y a b = 0 := by
  unfold det
  ring

/-- Truncation of zero is zero. -/
theorem ratTrunc_zero : ratTrunc 0 = 0 := by
  simp [ratTrunc]

/-- A duplicated consecutive vertex makes its edge's winding flag fail. -/
theorem windingFlAt_of_dup (vec : List Q2) (n i i2 : ℕ)
    (h : vAt vec i = vAt vec i2) : windingFlAt vec n i i2 = false := by
  unfold windingFlAt
  rw [List.any_eq_false]
  intro j _
  simp [h, det_pair_eq_zero, ratTrunc_zero]

/-- C9 (amended): every vertex list with a duplicated consecutive point
(cyclically) is rejected by `Validate`, but through the winding flag: the
result is `WrongWinding` (2) or `Both` (3), never `Ok` (0) — and not, as
the spec claims, necessarily with the `SelfIntersecting` flag set. -/
theorem C9_degenerate_rejected_as_wrong_winding (vec : List Q2) (i : ℕ)
    (hi : i < vec.length)
    (hdup : vAt vec i = vAt vec ((i + 1) % vec.length)) :
    Validate vec = 2 ∨ Validate vec = 3 := by
  have hmod : ((i + 1) % vec.length) = (if i < vec.length - 1 then i + 1 else 0) := by
    rcases Nat.lt_or_ge i (vec.length - 1) with h | h
    · rw [if_pos h, Nat.mod_eq_of_lt (by omega)]
    · have : i = vec.length - 1 := by omega
      subst this
      rw [if_neg (by omega)]
      have : vec.length - 1 + 1 = vec.length := by omega
      rw [this, Nat.mod_self]
  have hww : wrongWindingB vec = true := by
    unfold wrongWindingB
    rw [List.any_eq_true]
    refine ⟨i, List.mem_range.mpr hi, ?_⟩
    rw [windingFlAt_of_dup vec vec.length i _ (by rw [← hmod]; exact hdup)]
    rfl
  rw [validate_eq_flags, hww]
  cases selfIntersectB vec <;> simp

unseal Rat.mul Rat.add Rat.sub Rat.inv in
/-- Witness for C9 (amended): the square with a duplicated first vertex is
rejected with result 2 or 3 (concretely 3: the duplicate also lets two
index-non-adjacent edges touch at the duplicated corner). -/
theorem C9_degenerate_rejected_witness :
    Validate dupSquare = 2 ∨ Validate dupSquare = 3 :=
  C9_degenerate_rejected_as_wrong_winding dupSquare 0 (by decide) (by decide)

/-- A polygon on which the reflex scan finds nothing is convex. -/
theorem findReflexIdx_none_convex (vec : List Q2) (h : findReflexIdx vec = none) :
    isConvexVec vec = true := by
  unfold findReflexIdx at h
  unfold isConvexVec
  rw [List.all_eq_true]
  intro i hi
  have := List.find?_eq_none.mp h i hi
  simpa using this

/-- The work-queue loop of `calcShapes` only ever moves reflex-free polygons
into the output accumulator. -/
theorem calcShapesAux_convex :
    ∀ (fuel : ℕ) (q figs out : List (List Q2)),
      (∀ p ∈ figs, isConvexVec p = true) →
      calcShapesAux fuel q figs = some out →
      ∀ p ∈ out, isConvexVec p = true := by
  intro fuel
  induction fuel with
  | zero =>
    intro q figs out _ h
    simp [calcShapesAux] at h
  | succ n ih =>
    intro q figs out hfigs h
    cases q with
    | nil =>
      simp only [calcShapesAux, Option.some.injEq] at h
      subst h
      exact hfigs
    | cons vec rest =>
      rw [calcShapesAux] at h
      cases hr : findReflexIdx vec with
      | none =>
        simp only [hr] at h
        refine ih rest (figs ++ [vec]) out ?_ h
        intro p hp
        rcases List.mem_append.mp hp with hp | hp
        · exact hfigs p hp
        · rw [List.mem_singleton.mp hp]
          exact findReflexIdx_none_convex vec hr
      | some i =>
        simp only [hr] at h
        cases hs : splitPolygon vec i with
        | none =>
          simp only [hs] at h
          exact Option.noConfusion h
        | some pair =>
          rcases pair with ⟨vec1, vec2⟩
          simp only [hs] at h
          exact ih (rest ++ [vec1, vec2]) figs out hfigs h

/-- C1: whenever the convex decomposition `calcShapes` terminates without
raising an error, every polygon in the returned sequence is convex — no
cyclic vertex triple of any output polygon has a negative signed-turn
determinant. -/
theorem C1_decomposition_outputs_convex (fuel : ℕ) (input : List Q2)
    (out : List (List Q2)) (h : calcShapes fuel input = some out) :
    ∀ p ∈ out, isConvexVec p = true :=
  calcShapesAux_convex fuel [input] [] out (by simp) h

unseal Rat.mul Rat.add Rat.sub Rat.inv in
/-- Witness for C1: on the L-shaped test hexagon, `calcShapes` terminates
with two pieces and both are convex. -/
theorem C1_decomposition_outputs_convex_witness :
    calcShapes 5 Lshape = some [LshapeOut1, LshapeOut2] ∧
      isConvexVec LshapeOut1 = true ∧ isConvexVec LshapeOut2 = true := by
  have he : calcShapes 5 Lshape = some [LshapeOut1, LshapeOut2] := by decide
  have h := C1_decomposition_outputs_convex 5 Lshape [LshapeOut1, LshapeOut2] he
  exact ⟨he, h LshapeOut1 (by simp), h LshapeOut2 (by simp)⟩

/-- One split-selection step never increases the retained minimum squared
distance, and never drops a previously retained candidate. -/
theorem chooseSplitStep_mono (vec : List Q2) (n i1 i2 : ℕ) (p1 p2 : Q2)
    (acc : Option (ℕ × ℕ × Q2 × ℚ)) (j h k : ℕ) (v : Q2) (t : ℚ)
    (hacc : acc = some (h, k, v, t)) :
    ∃ h2 k2 v2 t2,
      chooseSplitStep vec n i1 i2 p1 p2 acc j = some (h2, k2, v2, t2) ∧ t2 ≤ t := by
  subst hacc
  by_cases hn1 : j = i1
  · exact ⟨h, k, v, t, by simp [chooseSplitStep, hn1], le_refl t⟩
  by_cases hn2 : j = i2
  · exact ⟨h, k, v, t, by simp [chooseSplitStep, hn2], le_refl t⟩
  cases hr : hitRay p1.1 p1.2 p2.1 p2.2 (vAt vec j).1 (vAt vec j).2
      (vAt vec (if j < n - 1 then j + 1 else 0)).1
      (vAt vec (if j < n - 1 then j + 1 else 0)).2 with
  | none => exact ⟨h, k, v, t, by simp [chooseSplitStep, hn1, hn2, hr], le_refl t⟩
  | some w =>
    by_cases hlt : distSq p2 w < t
    · exact ⟨j, if j < n - 1 then j + 1 else 0, w, distSq p2 w,
        by simp [chooseSplitStep, hn1, hn2, hr, hlt], le_of_lt hlt⟩
    · exact ⟨h, k, v, t, by simp [chooseSplitStep, hn1, hn2, hr, hlt], le_refl t⟩

/-- The split-selection fold never increases the retained minimum squared
distance. -/
theorem chooseSplitFold_mono (vec : List Q2) (n i1 i2 : ℕ) (p1 p2 : Q2) :
    ∀ (l : List ℕ) (acc : Option (ℕ × ℕ × Q2 × ℚ)) (h k : ℕ) (v : Q2) (t : ℚ),
      acc = some (h, k, v, t) →
      ∃ h2 k2 v2 t2,
        l.foldl (chooseSplitStep vec n i1 i2 p1 p2) acc = some (h2, k2, v2, t2) ∧ t2 ≤ t := by
  intro l
  induction l with
  | nil =>
    intro acc h k v t hacc
    exact ⟨h, k, v, t, hacc, le_refl t⟩
  | cons j l ih =>
    intro acc h k v t hacc
    obtain ⟨h2, k2, v2, t2, hstep, hle⟩ :=
      chooseSplitStep_mono vec n i1 i2 p1 p2 acc j h k v t hacc
    obtain ⟨h3, k3, v3, t3, hfold, hle2⟩ :=
      ih (chooseSplitStep vec n i1 i2 p1 p2 acc j) h2 k2 v2 t2 hstep
    exact ⟨h3, k3, v3, t3, by rw [List.foldl_cons]; exact hfold, le_trans hle2 hle⟩

/-- After processing an eligible edge whose ray cast hits at `w`, the
retained minimum squared distance is at most `distSq p2 w`. -/
theorem chooseSplitStep_candidate (vec : List Q2) (n i1 i2 : ℕ) (p1 p2 : Q2)
    (acc : Option (ℕ × ℕ × Q2 × ℚ)) (j : ℕ) (w : Q2)
    (helig : (j ≠ i1 && j ≠ i2) = true)
    (hhit : hitRay p1.1 p1.2 p2.1 p2.2 (vAt vec j).1 (vAt vec j).2
        (vAt vec (if j < n - 1 then j + 1 else 0)).1
        (vAt vec (if j < n - 1 then j + 1 else 0)).2 = some w) :
    ∃ h2 k2 v2 t2,
      chooseSplitStep vec n i1 i2 p1 p2 acc j = some (h2, k2, v2, t2) ∧
        t2 ≤ distSq p2 w := by
  have hn1 : ¬j = i1 := by
    intro hc
    simp [hc] at helig
  have hn2 : ¬j = i2 := by
    intro hc
    simp [hc] at helig
  cases acc with
  | none =>
    exact ⟨j, if j < n - 1 then j + 1 else 0, w, distSq p2 w,
      by simp [chooseSplitStep, hn1, hn2, hhit], le_refl _⟩
  | some prev =>
    rcases prev with ⟨h, k, hv, minLen⟩
    by_cases hlt : distSq p2 w < minLen
    · exact ⟨j, if j < n - 1 then j + 1 else 0, w, distSq p2 w,
        by simp [chooseSplitStep, hn1, hn2, hhit, hlt], le_refl _⟩
    · exact ⟨h, k, hv, minLen,
        by simp [chooseSplitStep, hn1, hn2, hhit, hlt], le_of_not_lt hlt⟩

/-- The split-selection fold retains a squared distance no larger than that
of any eligible ray hit among the scanned edges. -/
theorem chooseSplitFold_min (vec : List Q2) (n i1 i2 : ℕ) (p1 p2 : Q2) :
    ∀ (l : List ℕ) (acc : Option (ℕ × ℕ × Q2 × ℚ)) (j : ℕ), j ∈ l →
      (j ≠ i1 && j ≠ i2) = true →
      ∀ w, hitRay p1.1 p1.2 p2.1 p2.2 (vAt vec j).1 (vAt vec j).2
          (vAt vec (if j < n - 1 then j + 1 else 0)).1
          (vAt vec (if j < n - 1 then j + 1 else 0)).2 = some w →
      ∃ h2 k2 v2 t2,
        l.foldl (chooseSplitStep vec n i1 i2 p1 p2) acc = some (h2, k2, v2, t2) ∧
          t2 ≤ distSq p2 w := by
  intro l
  induction l with
  | nil =>
    intro acc j hj
    exact absurd hj (List.not_mem_nil j)
  | cons j0 l ih =>
    intro acc j hj helig w hhit
    rw [List.foldl_cons]
    rcases List.mem_cons.mp hj with hj | hj
    · subst hj
      obtain ⟨h2, k2, v2, t2, hstep, hle⟩ :=
        chooseSplitStep_candidate vec n i1 i2 p1 p2 acc j w helig hhit
      obtain ⟨h3, k3, v3, t3, hfold, hle2⟩ :=
        chooseSplitFold_mono vec n i1 i2 p1 p2 l
          (chooseSplitStep vec n i1 i2 p1 p2 acc j) h2 k2 v2 t2 hstep
      exact ⟨h3, k3, v3, t3, hfold, le_trans hle2 hle⟩
    · exact ih (chooseSplitStep vec n i1 i2 p1 p2 acc j0) j hj helig w hhit

/-- The split-selection step preserves the invariant that the retained
`minLen` is the squared distance of the retained hit point from `p2`. -/
theorem chooseSplitStep_dist (vec : List Q2) (n i1 i2 : ℕ) (p1 p2 : Q2)
    (acc : Option (ℕ × ℕ × Q2 × ℚ)) (j : ℕ)
    (hacc : ∀ h k v t, acc = some (h, k, v, t) → t = distSq p2 v) :
    ∀ h k v t, chooseSplitStep vec n i1 i2 p1 p2 acc j = some (h, k, v, t) →
      t = distSq p2 v := by
  intro h k v t hstep
  by_cases hn1 : j = i1
  · simp only [chooseSplitStep, hn1] at hstep
    simp at hstep
    exact hacc h k v t hstep
  by_cases hn2 : j = i2
  · simp only [chooseSplitStep, hn2] at hstep
    simp at hstep
    exact hacc h k v t hstep
  cases hr : hitRay p1.1 p1.2 p2.1 p2.2 (vAt vec j).1 (vAt vec j).2
      (vAt vec (if j < n - 1 then j + 1 else 0)).1
      (vAt vec (if j < n - 1 then j + 1 else 0)).2 with
  | none =>
    simp [chooseSplitStep, hn1, hn2, hr] at hstep
    exact hacc h k v t hstep
  | some w =>
    cases acc with
    | none =>
      simp [chooseSplitStep, hn1, hn2, hr] at hstep
      obtain ⟨h1, h2, h3, h4⟩ := hstep
      subst h3
      subst h4
      rfl
    | some prev =>
      rcases prev with ⟨h0, k0, hv0, m0⟩
      by_cases hlt : distSq p2 w < m0
      · simp [chooseSplitStep, hn1, hn2, hr, hlt] at hstep
        obtain ⟨h1, h2, h3, h4⟩ := hstep
        subst h3
        subst h4
        rfl
      · simp [chooseSplitStep, hn1, hn2, hr, hlt] at hstep
        obtain ⟨h1, h2, h3, h4⟩ := hstep
        subst h3
        subst h4
        exact hacc h0 k0 hv0 m0 rfl

/-- The split-selection fold preserves the `minLen` invariant. -/
theorem chooseSplitFold_dist (vec : List Q2) (n i1 i2 : ℕ) (p1 p2 : Q2) :
    ∀ (l : List ℕ) (acc : Option (ℕ × ℕ × Q2 × ℚ)),
      (∀ h k v t, acc = some (h, k, v, t) → t = distSq p2 v) →
      ∀ h k v t, l.foldl (chooseSplitStep vec n i1 i2 p1 p2) acc = some (h, k, v, t) →
        t = distSq p2 v := by
  intro l
  induction l with
  | nil => intro acc hacc; exact hacc
  | cons j l ih =>
    intro acc hacc
    rw [List.foldl_cons]
    exact ih (chooseSplitStep vec n i1 i2 p1 p2 acc j)
      (chooseSplitStep_dist vec n i1 i2 p1 p2 acc j hacc)

/-- C7 (amended): for a reflex triple found at scan index `i1`, the
split-selection loop of `calcShapes` retains a ray-edge intersection among
the edges not adjacent to the reflex vertex, chosen to minimize the squared
distance from the reflex vertex `vec[i2]` itself (the code's `p2`) — not,
as the spec claims, the squared distance from the vertex after the reflex
vertex. -/
theorem C7_split_minimizes_distance_from_reflex_vertex (vec : List Q2)
    (i1 h k : ℕ) (v : Q2) (t : ℚ)
    (hsel : chooseSplit vec i1 = some (h, k, v, t)) :
    t = distSq (vAt vec (splitI2 vec i1)) v ∧
      ∀ j, j < vec.length → j ≠ i1 → j ≠ splitI2 vec i1 →
        ∀ w, splitEdgeCandidate vec i1 j = some w →
          t ≤ distSq (vAt vec (splitI2 vec i1)) w := by
  have hsel2 : (List.range vec.length).foldl
      (chooseSplitStep vec vec.length i1 (splitI2 vec i1) (vAt vec i1)
        (vAt vec (splitI2 vec i1))) none = some (h, k, v, t) := hsel
  constructor
  · exact chooseSplitFold_dist vec vec.length i1 (splitI2 vec i1) (vAt vec i1)
      (vAt vec (splitI2 vec i1)) (List.range vec.length) none
      (by intro _ _ _ _ hcontra; cases hcontra) h k v t hsel2
  · intro j hjn hj1 hj2 w hhit
    obtain ⟨h2, k2, v2, t2, hfold, hle⟩ :=
      chooseSplitFold_min vec vec.length i1 (splitI2 vec i1) (vAt vec i1)
        (vAt vec (splitI2 vec i1)) (List.range vec.length) none j
        (List.mem_range.mpr hjn)
        (by simp [hj1, hj2]) w hhit
    rw [hsel2] at hfold
    simp only [Option.some.injEq, Prod.mk.injEq] at hfold
    obtain ⟨-, -, -, ht⟩ := hfold
    rw [← ht] at hle
    exact hle

unseal Rat.mul Rat.add Rat.sub Rat.inv in
/-- Counterexample for C7: on the valid simple polygon `raggedDecagon`
(`Validate` returns `Ok`), the first reflex triple is found at scan index 0
(reflex vertex `(10,0)`, next vertex `p3 = (80,-10)`); the loop selects the
hit `(28,0)` (squared distance 324 from the reflex vertex), although the
eligible candidate edge 3 is hit at `(120,0)`, which is strictly closer to
`p3` — so the inserted splitting vertex does not minimize the squared
distance from vertex `i+1`. -/
theorem C7_counterexample :
    Validate raggedDecagon = 0 ∧
      findReflexIdx raggedDecagon = some 0 ∧
      chooseSplit raggedDecagon 0 = some (7, 8, (28, 0), 324) ∧
      splitEdgeCandidate raggedDecagon 0 3 = some (120, 0) ∧
      distSq (vAt raggedDecagon 2) (120, 0) < distSq (vAt raggedDecagon 2) (28, 0) := by
  refine ⟨by decide, by decide, by decide, by decide, by decide⟩

unseal Rat.mul Rat.add Rat.sub Rat.inv in
/-- Witness for C7 (amended): on `raggedDecagon`, the selected squared
distance 324 is minimal with respect to the reflex vertex among eligible
ray hits, e.g. at most that of the candidate on edge 3. -/
theorem C7_split_minimizes_witness :
    chooseSplit raggedDecagon 0 = some (7, 8, (28, 0), 324) ∧
      (324 : ℚ) = distSq (vAt raggedDecagon (splitI2 raggedDecagon 0)) (28, 0) ∧
      (324 : ℚ) ≤ distSq (vAt raggedDecagon (splitI2 raggedDecagon 0)) (120, 0) := by
  have hsel : chooseSplit raggedDecagon 0 = some (7, 8, (28, 0), 324) := by decide
  have h := C7_split_minimizes_distance_from_reflex_vertex raggedDecagon 0 7 8 (28, 0) 324 hsel
  exact ⟨hsel, h.1,
    h.2 3 (by decide) (by decide) (by decide) (120, 0) (by decide)⟩

/-- First-vertex step: an inside first blast vertex flags the special
winding case and is pushed directly to both chains. -/
theorem stepVertex_first_inside (cl : Q2 → Bool) (cr : Q2 → Q2 → Option Q2)
    (v : Q2) (hv : cl v = true) :
    stepVertex cl cr WalkSt.init none v = ⟨true, true, false, 0, [], [v], [v]⟩ := by
  simp [stepVertex, WalkSt.init, hv]

/-- Same-state inside step with the buffer not yet started: direct pushes. -/
theorem stepVertex_inside_direct (cl : Q2 → Bool) (cr : Q2 → Q2 → Option Q2)
    (s : WalkSt) (lv v : Q2) (hv : cl v = true) (hls : s.lastState = true)
    (hst : s.started = false) :
    stepVertex cl cr s (some lv) v =
      { s with newS := s.newS ++ [v], brokenS := s.brokenS ++ [v], lastState := true } := by
  rcases s with ⟨ls, nd, st, c, sk, ns, bs⟩
  simp at hls hst
  subst hls
  subst hst
  simp [stepVertex, hv]

/-- Same-state inside step after the buffer has started: push onto the
front of the side stack. -/
theorem stepVertex_inside_buffer (cl : Q2 → Bool) (cr : Q2 → Q2 → Option Q2)
    (s : WalkSt) (lv v : Q2) (hv : cl v = true) (hls : s.lastState = true)
    (hst : s.started = true) :
    stepVertex cl cr s (some lv) v =
      { s with stack := v :: s.stack, lastState := true } := by
  rcases s with ⟨ls, nd, st, c, sk, ns, bs⟩
  simp at hls hst
  subst hls
  subst hst
  simp [stepVertex, hv]

/-- Same-state outside step: no output. -/
theorem stepVertex_outside_skip (cl : Q2 → Bool) (cr : Q2 → Q2 → Option Q2)
    (s : WalkSt) (lv v : Q2) (hv : cl v = false) (hls : s.lastState = false) :
    stepVertex cl cr s (some lv) v = s := by
  rcases s with ⟨ls, nd, st, c, sk, ns, bs⟩
  simp at hls
  subst hls
  simp [stepVertex, hv]

/-- Exit transition (inside to outside): the crossover point is pushed to
both chains immediately, never buffered. -/
theorem stepVertex_exit (cl : Q2 → Bool) (cr : Q2 → Q2 → Option Q2)
    (s : WalkSt) (lv v cv : Q2) (hv : cl v = false) (hls : s.lastState = true)
    (hcr : cr v lv = some cv) :
    stepVertex cl cr s (some lv) v =
      { s with count := s.count + 1, newS := s.newS ++ [cv],
               brokenS := s.brokenS ++ [cv], lastState := false } := by
  rcases s with ⟨ls, nd, st, c, sk, ns, bs⟩
  simp at hls
  subst hls
  simp [stepVertex, hv, hcr]

/-- Entering transition (outside to inside) with the special winding flag
set: the crossover point and the vertex are buffered onto the side stack. -/
theorem stepVertex_enter_buffer (cl : Q2 → Bool) (cr : Q2 → Q2 → Option Q2)
    (s : WalkSt) (lv v cv : Q2) (hv : cl v = true) (hls : s.lastState = false)
    (hnd : s.needed = true) (hcr : cr lv v = some cv) :
    stepVertex cl cr s (some lv) v =
      { s with count := s.count + 1, started := true,
               stack := v :: cv :: s.stack, lastState := true } := by
  rcases s with ⟨ls, nd, st, c, sk, ns, bs⟩
  simp at hls hnd
  subst hls
  subst hnd
  simp [stepVertex, hv, hcr]

/-- Unfolding of the walk on a cons cell. -/
theorem walkAux_cons (cl : Q2 → Bool) (cr : Q2 → Q2 → Option Q2)
    (s : WalkSt) (lastV : Option Q2) (v : Q2) (vs : List Q2) :
    walkAux cl cr s lastV (v :: vs) =
      walkAux cl cr (stepVertex cl cr s lastV v) (some v) vs := rfl

/-- Splitting a walk over an appended vertex list. -/
theorem walkAux_append (cl : Q2 → Bool) (cr : Q2 → Q2 → Option Q2) :
    ∀ (xs ys : List Q2) (s : WalkSt) (v0 : Q2),
      walkAux cl cr s (some v0) (xs ++ ys) =
        walkAux cl cr (walkAux cl cr s (some v0) xs) (some (xs.getLastD v0)) ys := by
  intro xs
  induction xs with
  | nil => intro ys s v0; rfl
  | cons x xs ih =>
    intro ys s v0
    rw [List.cons_append, walkAux_cons, walkAux_cons, ih, List.getLastD_cons]

/-- Walk over a run of inside vertices before the buffer starts: all are
appended directly to both chains. -/
theorem walk_inside_direct (cl : Q2 → Bool) (cr : Q2 → Q2 → Option Q2) :
    ∀ (vs : List Q2) (s : WalkSt) (lv : Q2), (∀ v ∈ vs, cl v = true) →
      s.lastState = true → s.started = false →
      walkAux cl cr s (some lv) vs =
        { s with newS := s.newS ++ vs, brokenS := s.brokenS ++ vs } := by
  intro vs
  induction vs with
  | nil =>
    intro s lv _ _ _
    rcases s with ⟨ls, nd, st, c, sk, ns, bs⟩
    simp [walkAux]
  | cons v vs ih =>
    intro s lv hall hls hst
    rw [walkAux_cons, stepVertex_inside_direct cl cr s lv v (hall v (by simp)) hls hst,
      ih _ v (fun x hx => hall x (by simp [hx])) (by simp) (by simpa using hst)]
    rcases s with ⟨ls, nd, st, c, sk, ns, bs⟩
    simp at hls
    subst hls
    simp

/-- Walk over a run of outside vertices with the state already outside:
nothing changes. -/
theorem walk_outside_skip (cl : Q2 → Bool) (cr : Q2 → Q2 → Option Q2) :
    ∀ (vs : List Q2) (s : WalkSt) (lv : Q2), (∀ v ∈ vs, cl v = false) →
      s.lastState = false →
      walkAux cl cr s (some lv) vs = s := by
  intro vs
  induction vs with
  | nil =>
    intro s lv _ _
    rfl
  | cons v vs ih =>
    intro s lv hall hls
    rw [walkAux_cons, stepVertex_outside_skip cl cr s lv v (hall v (by simp)) hls]
    exact ih s v (fun x hx => hall x (by simp [hx])) hls

/-- Walk over a run of inside vertices after the buffer has started: all
are prepended to the side stack and none reach the output chains. -/
theorem walk_inside_buffer (cl : Q2 → Bool) (cr : Q2 → Q2 → Option Q2) :
    ∀ (vs : List Q2) (s : WalkSt) (lv : Q2), (∀ v ∈ vs, cl v = true) →
      s.lastState = true → s.started = true →
      walkAux cl cr s (some lv) vs = { s with stack := vs.reverse ++ s.stack } := by
  intro vs
  induction vs with
  | nil =>
    intro s lv _ _ _
    rcases s with ⟨ls, nd, st, c, sk, ns, bs⟩
    simp [walkAux]
  | cons v vs ih =>
    intro s lv hall hls hst
    rw [walkAux_cons, stepVertex_inside_buffer cl cr s lv v (hall v (by simp)) hls hst,
      ih _ v (fun x hx => hall x (by simp [hx])) (by simp) (by simpa using hst)]
    rcases s with ⟨ls, nd, st, c, sk, ns, bs⟩
    simp at hls
    subst hls
    simp

/-- C2: when the first blast vertex classifies `Inside` (pattern: a
non-empty inside run, then a non-empty outside run, then a non-empty inside
run, with the two crossover lookups succeeding), the walk emits the leading
inside run and the exit crossover directly, but buffers the entering
crossover point and every subsequent inside vertex in the side stack
(`specialWindingStack`); they reach the output chains only after the walk
over all blast vertices completes, spliced in after the directly emitted
part, in both `newStructure` and `brokenStructure`. -/
theorem C2_first_vertex_inside_defers_entering_crossover
    (cl : Q2 → Bool) (cr : Q2 → Q2 → Option Q2)
    (a : Q2) (As : List Q2) (b : Q2) (Bs : List Q2) (c : Q2) (Cs : List Q2)
    (cvX cvE : Q2)
    (hA : ∀ v ∈ a :: As, cl v = true)
    (hB : ∀ v ∈ b :: Bs, cl v = false)
    (hC : ∀ v ∈ c :: Cs, cl v = true)
    (hX : cr b (As.getLastD a) = some cvX)
    (hE : cr (Bs.getLastD b) c = some cvE) :
    (walkAux cl cr WalkSt.init none ((a :: As) ++ (b :: Bs) ++ (c :: Cs))).newS =
        (a :: As) ++ [cvX] ∧
      (walkAux cl cr WalkSt.init none ((a :: As) ++ (b :: Bs) ++ (c :: Cs))).stack =
        (c :: Cs).reverse ++ [cvE] ∧
      testPlaceBombModel cl cr ((a :: As) ++ (b :: Bs) ++ (c :: Cs)) =
        ⟨((a :: As) ++ [cvX]) ++ ((c :: Cs).reverse ++ [cvE]) ++ [(-4, 4), (-4, -4), (4, -4)],
         ((a :: As) ++ [cvX]) ++ ((c :: Cs).reverse ++ [cvE]) ++ [(4, 4)],
         2, true⟩ := by
  have hbb : walkAux cl cr ⟨true, true, false, 0, [], a :: As, a :: As⟩
      (some (As.getLastD a)) (b :: Bs) =
      ⟨false, true, false, 1, [], (a :: As) ++ [cvX], (a :: As) ++ [cvX]⟩ := by
    rw [walkAux_cons,
      stepVertex_exit cl cr _ (As.getLastD a) b cvX (hB b (by simp)) rfl hX]
    exact walk_outside_skip cl cr Bs _ b (fun x hx => hB x (by simp [hx])) rfl
  have hcc : walkAux cl cr
      ⟨false, true, false, 1, [], (a :: As) ++ [cvX], (a :: As) ++ [cvX]⟩
      (some (Bs.getLastD b)) (c :: Cs) =
      ⟨true, true, true, 2, Cs.reverse ++ [c, cvE],
        (a :: As) ++ [cvX], (a :: As) ++ [cvX]⟩ := by
    rw [walkAux_cons,
      stepVertex_enter_buffer cl cr _ (Bs.getLastD b) c cvE (hC c (by simp)) rfl rfl hE]
    exact walk_inside_buffer cl cr Cs _ c (fun x hx => hC x (by simp [hx])) rfl rfl
  have hwalk : walkAux cl cr WalkSt.init none ((a :: As) ++ (b :: Bs) ++ (c :: Cs)) =
      ⟨true, true, true, 2, Cs.reverse ++ [c, cvE],
        (a :: As) ++ [cvX], (a :: As) ++ [cvX]⟩ := by
    rw [List.append_assoc, List.cons_append, walkAux_cons,
      stepVertex_first_inside cl cr a (hA a (by simp)),
      walkAux_append cl cr As ((b :: Bs) ++ (c :: Cs)),
      walk_inside_direct cl cr As _ a (fun x hx => hA x (by simp [hx])) rfl rfl,
      walkAux_append cl cr (b :: Bs) (c :: Cs)]
    show walkAux cl cr
        (walkAux cl cr ⟨true, true, false, 0, [], a :: As, a :: As⟩
          (some (As.getLastD a)) (b :: Bs))
        (some ((b :: Bs).getLastD (As.getLastD a))) (c :: Cs) = _
    rw [hbb, List.getLastD_cons, hcc]
  refine ⟨by rw [hwalk], by rw [hwalk]; simp, ?_⟩
  unfold testPlaceBombModel
  rw [hwalk]
  simp [breakableShape, vAt]

unseal Rat.mul Rat.add Rat.sub Rat.inv in
/-- Witness for C2: a concrete deferral run — classification by upper half
plane, crossovers by midpoint; blast `(0,1),(1,2)` inside, `(5,-1),(6,-2)`
outside, `(2,3),(3,4)` inside again. -/
theorem C2_first_vertex_inside_defers_witness :
    testPlaceBombModel clsAbove crsMid
        [(0, 1), (1, 2), (5, -1), (6, -2), (2, 3), (3, 4)] =
      ⟨[(0, 1), (1, 2), (3, 1 / 2), (3, 4), (2, 3), (4, 1 / 2), (-4, 4), (-4, -4), (4, -4)],
       [(0, 1), (1, 2), (3, 1 / 2), (3, 4), (2, 3), (4, 1 / 2), (4, 4)],
       2, true⟩ := by
  have h := C2_first_vertex_inside_defers_entering_crossover clsAbove crsMid
    (0, 1) [(1, 2)] (5, -1) [(6, -2)] (2, 3) [(3, 4)] (3, 1 / 2) (4, 1 / 2)
    (by decide) (by decide) (by decide) (by decide) (by decide)
  have h3 := h.2.2
  rw [show ((0, 1) :: [(1, 2)]) ++ ((5, -1) :: [(6, -2)]) ++ ((2, 3) :: [(3, 4)]) =
      ([(0, 1), (1, 2), (5, -1), (6, -2), (2, 3), (3, 4)] : List Q2) from rfl] at h3
  rw [h3]
  rfl

/-- C3: when a classification transition is detected but the crossover
lookup finds no intersection (the ray cast throws, swallowed by the empty
catch block), `testPlaceBomb` does NOT fall back to a no-op: the walk
continues, the body is still destroyed unconditionally, and the emitted
replacement polygon is corrupt (here just the hard-coded breakable prefix).
This demonstrates the divergence from the spec's failure policy. -/
theorem C3_transition_without_intersection_not_noop :
    (testPlaceBombModel clsAbove (fun _ _ => none) [(5, -1), (0, 1)]).crossoverCount = 1 ∧
      testPlaceBombModel clsAbove (fun _ _ => none) [(5, -1), (0, 1)] =
        ⟨[(-4, 4), (-4, -4), (4, -4)], [(4, 4)], 1, true⟩ := by
  refine ⟨rfl, rfl⟩

unseal Rat.mul Rat.add Rat.sub Rat.inv in
/-- C4: the blast-shape retry loop of `Prototype::testPlaceBomb` has no
attempt cap and no failure signal: on a candidate stream whose every shape
fails validation (e.g. constantly the reversed square), the loop is still
running after any number of attempts — in particular it is not bounded by
~50 attempts and never surfaces a `RetryBudgetExhausted` condition. -/
theorem C4_retry_loop_unbounded :
    ∀ (fuel start : ℕ), blastRetry (fun _ => squareRev) fuel start = none := by
  have hv2 : Validate squareRev = 2 := by decide
  intro fuel
  induction fuel with
  | zero => intro s; rfl
  | succ n ih =>
    intro s
    rw [blastRetry]
    simp only [hv2]
    simp only [show (2 : ℕ) = 0 ↔ False by simp, if_false]
    exact ih (s + 1)

/-- C8: `generateBlastShape(radius, segments, roughness)` returns exactly
`segments` points; the k-th point lies at angle `k * 2*pi/segments` at
distance `radius + noise k * radius * roughness` from the origin, and since
the noise draw is bounded in `[-1, 1]`, every point's distance from the
origin lies in `[radius*(1-roughness), radius*(1+roughness)]`. -/
theorem C8_blast_shape_points (radius roughness : ℝ) (segments : ℕ) (noise : ℕ → ℝ)
    (hrad : 0 ≤ radius) (hrough : 0 ≤ roughness)
    (hnoise : ∀ k, -1 ≤ noise k ∧ noise k ≤ 1) :
    (generateBlastShape radius segments roughness noise).length = segments ∧
      ∀ k, k < segments →
        (generateBlastShape radius segments roughness noise).getD k (0, 0) =
          ((radius + noise k * (radius * roughness)) * Real.cos (k * (2 * Real.pi / segments)),
           (radius + noise k * (radius * roughness)) * Real.sin (k * (2 * Real.pi / segments))) ∧
        radius * (1 - roughness) ≤
          distOrigin ((generateBlastShape radius segments roughness noise).getD k (0, 0)) ∧
        distOrigin ((generateBlastShape radius segments roughness noise).getD k (0, 0)) ≤
          radius * (1 + roughness) := by
  have hlen : (generateBlastShape radius segments roughness noise).length = segments := by
    simp [generateBlastShape]
  refine ⟨hlen, ?_⟩
  intro k hk
  have hget : (generateBlastShape radius segments roughness noise).getD k (0, 0) =
      ((radius + noise k * (radius * roughness)) * Real.cos (k * (2 * Real.pi / segments)),
       (radius + noise k * (radius * roughness)) * Real.sin (k * (2 * Real.pi / segments))) := by
    unfold generateBlastShape
    rw [List.getD_eq_getElem?_getD, List.getElem?_map, List.getElem?_range hk]
    rfl
  refine ⟨hget, ?_, ?_⟩ <;> rw [hget]
  all_goals {
    have hpyth : Real.cos (k * (2 * Real.pi / segments)) ^ 2 +
        Real.sin (k * (2 * Real.pi / segments)) ^ 2 = 1 :=
      Real.cos_sq_add_sin_sq _
    have hdist : distOrigin
        ((radius + noise k * (radius * roughness)) * Real.cos (k * (2 * Real.pi / segments)),
         (radius + noise k * (radius * roughness)) * Real.sin (k * (2 * Real.pi / segments))) =
        |radius + noise k * (radius * roughness)| := by
      unfold distOrigin
      have hsq : ((radius + noise k * (radius * roughness)) *
            Real.cos (k * (2 * Real.pi / segments))) ^ 2 +
          ((radius + noise k * (radius * roughness)) *
            Real.sin (k * (2 * Real.pi / segments))) ^ 2 =
          (radius + noise k * (radius * roughness)) ^ 2 := by
        rw [mul_pow, mul_pow, ← mul_add, hpyth, mul_one]
      rw [show (((radius + noise k * (radius * roughness)) *
            Real.cos (k * (2 * Real.pi / segments)),
           (radius + noise k * (radius * roughness)) *
            Real.sin (k * (2 * Real.pi / segments))) : ℝ × ℝ).1 =
          (radius + noise k * (radius * roughness)) *
            Real.cos (k * (2 * Real.pi / segments)) from rfl]
      rw [show (((radius + noise k * (radius * roughness)) *
            Real.cos (k * (2 * Real.pi / segments)),
           (radius + noise k * (radius * roughness)) *
            Real.sin (k * (2 * Real.pi / segments))) : ℝ × ℝ).2 =
          (radius + noise k * (radius * roughness)) *
            Real.sin (k * (2 * Real.pi / segments)) from rfl]
      rw [hsq, Real.sqrt_sq_eq_abs]
    rw [hdist]
    have hn1 := (hnoise k).1
    have hn2 := (hnoise k).2
    have hP : 0 ≤ radius * roughness := mul_nonneg hrad hrough
    have hlow : radius - radius * roughness ≤ radius + noise k * (radius * roughness) := by
      nlinarith
    have hhigh : radius + noise k * (radius * roughness) ≤ radius + radius * roughness := by
      nlinarith
    first
    | exact le_trans (by nlinarith) (le_abs_self _)
    | exact abs_le.mpr ⟨by nlinarith, by nlinarith⟩
  }

/-- Witness for C8: at `radius = 10`, `segments = 12`, `roughness = 1/2`
with the zero noise stream, the generator returns 12 points. -/
theorem C8_blast_shape_points_witness :
    (0 : ℝ) ≤ 10 ∧ (generateBlastShape 10 12 (1 / 2) (fun _ => 0)).length = 12 :=
  ⟨by norm_num,
    (C8_blast_shape_points 10 (1 / 2) 12 (fun _ => 0) (by norm_num) (by norm_num)
      (fun k => by norm_num)).1⟩

/-- C10: `Bomb::setRadius` stores and returns `m_maxRadius` (= 50) when the
argument exceeds it, stores and returns 0 when the argument is below 1
(including 0 and negatives), and stores and returns the argument otherwise;
the stored radius is hence 0 or in `[1, m_maxRadius]`, and `getRadius`
returns the same value afterwards. -/
theorem C10_setRadius_clamps (s : BombSt) (radius : ℤ) :
    (radius > m_maxRadius → setRadius s radius = (⟨m_maxRadius⟩, m_maxRadius)) ∧
      (radius < 1 → setRadius s radius = (⟨0⟩, 0)) ∧
      (1 ≤ radius → radius ≤ m_maxRadius → setRadius s radius = (⟨radius⟩, radius)) ∧
      ((setRadius s radius).2 = 0 ∨
        (1 ≤ (setRadius s radius).2 ∧ (setRadius s radius).2 ≤ m_maxRadius)) ∧
      getRadius (setRadius s radius).1 = (setRadius s radius).2 := by
  rcases s with ⟨r0⟩
  refine ⟨fun h => ?_, fun h => ?_, fun h1 h2 => ?_, ?_, ?_⟩
  · have hgt : (50 : ℤ) < radius := h
    unfold setRadius m_maxRadius
    rw [if_pos hgt]
  · have hlt : radius < 1 := h
    unfold setRadius m_maxRadius
    rw [if_neg (show ¬(50 : ℤ) < radius by omega), if_pos hlt]
  · have hle : radius ≤ 50 := h2
    unfold setRadius m_maxRadius
    rw [if_neg (show ¬(50 : ℤ) < radius by omega), if_neg (show ¬radius < 1 by omega)]
  · unfold setRadius m_maxRadius
    split_ifs with hA hB
    · simp
    · simp
    · simp only [BombSt.mk.injEq]
      omega
  · unfold setRadius getRadius
    split_ifs <;> rfl

/-- Witness for C10: a too-large radius is clamped to 50 and a negative one
to 0, regardless of the previously stored value. -/
theorem C10_setRadius_clamps_witness :
    ((60 : ℤ) > m_maxRadius ∧ setRadius ⟨7⟩ 60 = (⟨m_maxRadius⟩, m_maxRadius)) ∧
      ((-3 : ℤ) < 1 ∧ setRadius ⟨7⟩ (-3) = (⟨0⟩, 0)) :=
  ⟨⟨by decide, (C10_setRadius_clamps ⟨7⟩ 60).1 (by decide)⟩,
   ⟨by decide, (C10_setRadius_clamps ⟨7⟩ (-3)).2.1 (by decide)⟩⟩

end Thermite
